import Mathlib

/-!
Verification of the version-resolution core of `jvmvj` (src/src/main.rs):
a shallow embedding of the version normalizer, specifier parser, distro
matcher, resolver, cascading config locator, and quiet-mode failure policy,
together with theorems settling the specification's claims.

Modeling conventions:
* Rust `u16` parsing is modeled on `Nat` with the explicit bound 65535.
* Process termination (`exit`, abrupt termination with a message) is modeled
  by an `Outcome` record holding the exit code and the lines written to the
  standard output and diagnostic streams.  Abrupt termination with a message
  (which the Rust runtime reports on the diagnostic stream and turns into
  exit code 101) is modeled as exit code 101 with the message on stderr.
* The `JAVA_HOME` environment read is an explicit `Option String` parameter.
* A directory is a list of path components, deepest component first, so the
  parent of `c :: p` is `p` and the filesystem root is `[]`.
* `Char.isAlpha` models Rust's `char::is_alphabetic` (ASCII fragment, which
  covers every alphabetic character the specification mentions).
-/

namespace Jvmvj

/-- Rust `str::split_once` on a list of characters: split at the first
occurrence of `c`, yielding the parts before and after it. -/
def splitOnceList (c : Char) : List Char → Option (List Char × List Char)
  | [] => none
  | x :: xs =>
    if x = c then some ([], xs)
    else (splitOnceList c xs).map (fun p => (x :: p.1, p.2))

/-- Rust `str::split_once` on strings. -/
def splitOnce (s : String) (c : Char) : Option (String × String) :=
  (splitOnceList c s.data).map (fun p => (⟨p.1⟩, ⟨p.2⟩))

/-- Numeric value of a digit string (most significant digit first). -/
def digitsToNat (cs : List Char) : Nat :=
  cs.foldl (fun a c => a * 10 + (c.toNat - 48)) 0

/-- Parse a non-empty all-digit character list as a natural number. -/
def parseDigits (cs : List Char) : Option Nat :=
  if cs.isEmpty then none
  else if cs.all (fun c => c.isDigit) then some (digitsToNat cs) else none

/-- Rust `u16::from_str` allows one leading `'+'` sign. -/
def stripPlus : List Char → List Char
  | '+' :: rest => rest
  | other => other

/-- Rust `str::parse::<u16>()`: an optional leading `'+'`, then one or more
ASCII digits, and the value must fit in 16 bits. -/
def parseU16 (s : String) : Option Nat :=
  match parseDigits (stripPlus s.data) with
  | some n => if n ≤ 65535 then some n else none
  | none => none

/-- Boolean prefix test on character lists (first argument is the needle). -/
def beginsWith : List Char → List Char → Bool
  | [], _ => true
  | _ :: _, [] => false
  | a :: as, b :: bs => a = b && beginsWith as bs

/-- Rust `str::contains` with a string pattern: case-sensitive substring
search. -/
def containsSub (needle : List Char) : List Char → Bool
  | [] => needle.isEmpty
  | b :: bs => beginsWith needle (b :: bs) || containsSub needle bs

/-- Rust `str::contains` lifted to `String`. -/
def strContains (hay needle : String) : Bool :=
  containsSub needle.data hay.data

deriving instance DecidableEq for Except

/-- One installed JVM as reported by the external registry
(struct `Jvm` in the source). -/
structure Jvm where
  arch : String
  bundle_id : String
  enabled : Bool
  home_path : String
  name : String
  platform_version : String
  vendor : String
  version : String
deriving DecidableEq

/-- `Jvm::major_version` normalizes the raw version string to a major
version number, or aborts the process with a diagnostic (always non-quiet in
the source); the abort is modeled as `Except.error` carrying the message. -/
def major_version (jvm : Jvm) : Except String Nat :=
  match splitOnce jvm.version '.' with
  | none =>
    .error ("Version number " ++ jvm.version ++ " of jvm " ++ jvm.home_path
      ++ " should contain at least one period!")
  | some (mv, rest) =>
    let tok : Except String String :=
      if mv = "1" then
        match splitOnce rest '.' with
        | none =>
          .error ("Version number " ++ jvm.version ++ " of jvm "
            ++ jvm.home_path
            ++ " should contain at least two periods when 1-prefixed!")
        | some (mv2, _) => .ok mv2
      else .ok mv
    match tok with
    | .error e => .error e
    | .ok t =>
      match parseU16 t with
      | some n => .ok n
      | none =>
        .error ("Major version number " ++ t ++ " of JVM " ++ jvm.home_path
          ++ " should be numeric!")

/-- The normalized major version when it exists (no abort). -/
def mvOf (jvm : Jvm) : Option Nat :=
  (major_version jvm).toOption

/-- The structured query (struct `V` in the source): required major version
number plus optional distribution constraint. -/
structure V where
  number : Nat
  distro : Option String
deriving DecidableEq

/-- `get_distro`: the maximal leading run of alphabetic characters, or
`none` when that run is empty. -/
def get_distro (spec : String) : Option String :=
  let dspec : List Char := spec.data.takeWhile (fun c => c.isAlpha)
  if dspec.isEmpty then none else some ⟨dspec⟩

/-- The specifier with the leading run of alphabetic and `'-'` characters
removed (the `skip_while` stage of `get_version_from_input`). -/
def stripDistroDash (spec : String) : String :=
  ⟨spec.data.dropWhile (fun c => c.isAlpha || c = '-')⟩

/-- `get_version_from_input`: the specifier parser.  The Rust `match` on
`split_once('.')` has arms `Some(("1", ver))`, `Some((ver, _))` and a
fallback that parses the original, unstripped specifier. -/
def get_version_from_input (spec : String) : Option V :=
  let distro := get_distro spec
  let number :=
    match splitOnce (stripDistroDash spec) '.' with
    | some (hd, rest) => if hd = "1" then parseU16 rest else parseU16 hd
    | none => parseU16 spec
  number.map (fun n => { number := n, distro := distro })

/-- `distro_matches`: no constraint always matches; otherwise the constraint
must be a substring of the bundle identifier or of the install path. -/
def distro_matches (v : V) (jvm : Jvm) : Bool :=
  match v.distro with
  | none => true
  | some distro =>
    strContains jvm.bundle_id distro || strContains jvm.home_path distro

/-- The observable result of one invocation: exit code plus the lines
written to the standard output and diagnostic streams. -/
structure Outcome where
  exitCode : Nat
  stdout : List String
  stderr : List String
deriving DecidableEq

/-- `exit_with_err`: quiet invocations exit successfully with no output,
non-quiet ones report the message and exit with status 1. -/
def exit_with_err (msg : String) (quiet : Bool) : Outcome :=
  if quiet then ⟨0, [], []⟩ else ⟨1, [], [msg]⟩

/-- Rust `Debug` rendering of `Option<String>`. -/
def debugOptionString : Option String → String
  | none => "None"
  | some s => "Some(\"" ++ s ++ "\")"

/-- Rust `Debug` rendering of the query struct `V`. -/
def debugV (v : V) : String :=
  "V \x7b number: " ++ toString v.number ++ ", distro: "
    ++ debugOptionString v.distro ++ " \x7d"

/-- The abrupt-termination message of `switch_to` when no runtime matches. -/
def noMatchMsg (v : V) : String :=
  "You requested a JVM of version " ++ debugV v
    ++ ", but no such JVM is installed!"

/-- The abrupt-termination message of `switch_to` for an unparseable
specifier. -/
def badSpecMsg (spec : String) : String :=
  "Did not understand version spec " ++ spec

/-- The `jvms.iter().find(..)` expression of `switch_to`: scan the registry
in order; normalizing a candidate's version may abort the whole process
(modeled as `Except.error` with the diagnostic), otherwise the first
runtime whose major version equals the query's number and which passes the
distro matcher is returned. -/
def findMatch (v : V) : List Jvm → Except String (Option Jvm)
  | [] => .ok none
  | jvm :: rest =>
    match major_version jvm with
    | .error e => .error e
    | .ok mv =>
      if mv = v.number && distro_matches v jvm then .ok (some jvm)
      else findMatch v rest

/-- `switch_to`: parse the specifier, resolve it against the registry, print
the selected install path, and announce the activation unless quiet mode
suppresses it; failures follow the source's policy (abrupt termination is
exit code 101 with the message on the diagnostic stream). -/
def switch_to (spec : String) (jvms : List Jvm) (quiet : Bool)
    (old_java_home : Option String) : Outcome :=
  match get_version_from_input spec with
  | some v =>
    match findMatch v jvms with
    | .error e => ⟨1, [], [e]⟩
    | .ok none => ⟨101, [], [noMatchMsg v]⟩
    | .ok (some selection) =>
      if !quiet || (old_java_home.isNone
          || old_java_home != some selection.home_path) then
        ⟨0, [selection.home_path], ["Activating Java " ++ selection.name]⟩
      else
        ⟨0, [selection.home_path], []⟩
  | none =>
    if !quiet then ⟨101, [], [badSpecMsg spec]⟩
    else ⟨0, [], []⟩

/-- Rust `str::trim`: remove leading and trailing whitespace. -/
def rustTrim (s : String) : String :=
  ⟨((s.data.dropWhile Char.isWhitespace).reverse.dropWhile
      Char.isWhitespace).reverse⟩

/-- Rust `str::starts_with` with a string pattern. -/
def rustStartsWith (s pre : String) : Bool :=
  beginsWith pre.data s.data

/-- Split a character list at every `'\n'` (each part excludes the
newline). -/
def splitOnNewline : List Char → List (List Char)
  | [] => [[]]
  | c :: rest =>
    match splitOnNewline rest with
    | [] => [[]]
    | l :: ls => if c = '\n' then [] :: l :: ls else (c :: l) :: ls

/-- Strip one trailing `'\r'` (Rust `str::lines` handles `\r\n` endings). -/
def dropCarriageReturn (s : String) : String :=
  match s.data.reverse with
  | '\r' :: rest => ⟨rest.reverse⟩
  | _ => s

/-- Rust `str::lines` on a whole file content: split on `'\n'`, drop the
optional final line ending, and strip one trailing `'\r'` from each line. -/
def rustLines (s : String) : List String :=
  if s = "" then []
  else
    let parts := splitOnNewline s.data
    let parts := if parts.getLast? = some [] then parts.dropLast else parts
    parts.map (fun l => dropCarriageReturn ⟨l⟩)

/-- Replacement worker for Rust `str::replace`: replace every leftmost,
non-overlapping occurrence of `pat`.  The fuel argument (instantiated with
the list's length) only makes the recursion structural. -/
def replaceAllFuel (pat repl : List Char) : Nat → List Char → List Char
  | 0, s => s
  | _, [] => []
  | fuel + 1, c :: rest =>
    if pat ≠ [] && beginsWith pat (c :: rest) then
      repl ++ replaceAllFuel pat repl fuel ((c :: rest).drop pat.length)
    else c :: replaceAllFuel pat repl fuel rest

/-- Rust `str::replace`: replace every occurrence of `pat` by `repl`. -/
def rustReplace (s pat repl : String) : String :=
  ⟨replaceAllFuel pat.data repl.data s.data.length s.data⟩

/-- `find_version_string_from_tool_versions`, applied to the optional file
content (`fs::read_to_string(..).ok()?` is the `none` case): the first
trimmed line starting with `"java"`, with every occurrence of `"java "`
removed. -/
def find_version_string_from_tool_versions (contents : Option String) :
    Option String :=
  match contents with
  | none => none
  | some contents =>
    match ((rustLines contents).map rustTrim).find?
        (fun l => rustStartsWith l "java") with
    | none => none
    | some javaLine => some (rustReplace javaLine "java " "")

/-- The files the cascading locator consults, per directory: the content of
`.java-version` and of `.tool-versions` when present.  A directory is a list
of path components, deepest first; the filesystem root is `[]`. -/
structure FileSys where
  javaVersion : List String → Option String
  toolVersions : List String → Option String

/-- The `NoConfigFound` diagnostic of `find_version_string_from_file`. -/
def noConfigMsg : String :=
  "No .java_version file found in this directory or any parent!"

/-- `find_version_string_from_file`: per directory level, the primary
`.java-version` file (whole content, trimmed) takes precedence, then the
secondary `.tool-versions` file, then the parent directory; at the root with
neither file found the process terminates through `exit_with_err` (modeled
as `Except.error` carrying that outcome). -/
def find_version_string_from_file (fsys : FileSys) (quiet : Bool) :
    List String → Except Outcome String
  | [] =>
    match fsys.javaVersion [] with
    | some contents => .ok (rustTrim contents)
    | none =>
      match find_version_string_from_tool_versions (fsys.toolVersions []) with
      | some spec => .ok spec
      | none => .error (exit_with_err noConfigMsg quiet)
  | c :: parent =>
    match fsys.javaVersion (c :: parent) with
    | some contents => .ok (rustTrim contents)
    | none =>
      match find_version_string_from_tool_versions
          (fsys.toolVersions (c :: parent)) with
      | some spec => .ok spec
      | none => find_version_string_from_file fsys quiet parent

/-- The `auto` subcommand: locate the specifier by cascading upward from
`dir`, then resolve it with `switch_to` under the given quiet flag. -/
def autoInvocation (fsys : FileSys) (dir : List String) (jvms : List Jvm)
    (quiet : Bool) (old_java_home : Option String) : Outcome :=
  match find_version_string_from_file fsys quiet dir with
  | .error out => out
  | .ok spec => switch_to spec jvms quiet old_java_home

/-- The explicit-specifier path of `main`: the argument is resolved with
`switch_to` and the quiet flag hard-wired to `false`. -/
def explicitInvocation (spec : String) (jvms : List Jvm)
    (old_java_home : Option String) : Outcome :=
  switch_to spec jvms false old_java_home

/-! ### Helper lemmas -/

/-- The order on `UInt32` is the order of the underlying natural numbers. -/
theorem uint32_le_iff (a b : UInt32) : a ≤ b ↔ a.toNat ≤ b.toNat := Iff.rfl

/-- An alphabetic character is not an ASCII digit. -/
theorem isDigit_eq_false_of_isAlpha {c : Char} (h : c.isAlpha = true) :
    c.isDigit = false := by
  simp only [Char.isAlpha, Char.isUpper, Char.isLower, Char.isDigit,
    Bool.or_eq_true, Bool.and_eq_true, decide_eq_true_eq, uint32_le_iff,
    UInt32.toNat_ofNat, UInt32.size] at *
  simp only [Bool.and_eq_false_iff, decide_eq_false_iff_not, uint32_le_iff,
    UInt32.toNat_ofNat, UInt32.size]
  omega

/-- An alphabetic character is not the sign character `'+'`. -/
theorem ne_plus_of_isAlpha {c : Char} (h : c.isAlpha = true) : c ≠ '+' := by
  rintro rfl; simp at h

/-- A digit character is not the sign character `'+'`. -/
theorem ne_plus_of_isDigit {c : Char} (h : c.isDigit = true) : c ≠ '+' := by
  rintro rfl; simp at h

/-- `stripPlus` leaves a list alone when its head is not `'+'`. -/
theorem stripPlus_cons_of_ne {c : Char} (cs : List Char) (h : c ≠ '+') :
    stripPlus (c :: cs) = c :: cs := by
  unfold stripPlus
  split
  · next heq => cases heq; exact absurd rfl h
  · rfl

/-- `parseU16` on a non-empty all-digit string yields the digits' value when
it fits in 16 bits. -/
theorem parseU16_digits {cs : List Char} (hne : cs ≠ [])
    (hd : cs.all (fun c => c.isDigit) = true) :
    parseU16 ⟨cs⟩ =
      if digitsToNat cs ≤ 65535 then some (digitsToNat cs) else none := by
  have hsp : stripPlus cs = cs := by
    cases cs with
    | nil => rfl
    | cons c cs' =>
      have hc : c.isDigit = true := by
        simp only [List.all_cons, Bool.and_eq_true] at hd
        exact hd.1
      exact stripPlus_cons_of_ne _ (ne_plus_of_isDigit hc)
  simp [parseU16, hsp, parseDigits, hne, hd]

/-- `parseU16` fails on a string whose first character is alphabetic. -/
theorem parseU16_alpha_head {c : Char} {cs : List Char}
    (h : c.isAlpha = true) : parseU16 ⟨c :: cs⟩ = none := by
  have h1 : stripPlus (c :: cs) = c :: cs :=
    stripPlus_cons_of_ne _ (ne_plus_of_isAlpha h)
  have h2 : (c :: cs).all (fun c => c.isDigit) = false := by
    simp [isDigit_eq_false_of_isAlpha h]
  simp [parseU16, h1, parseDigits, h2]

/-- `beginsWith` is the prefix relation. -/
theorem beginsWith_iff (n : List Char) : ∀ h : List Char,
    beginsWith n h = true ↔ ∃ t, h = n ++ t := by
  induction n with
  | nil => intro h; simp [beginsWith]
  | cons a as ih =>
    intro h
    cases h with
    | nil => simp [beginsWith]
    | cons b bs =>
      simp only [beginsWith, Bool.and_eq_true, decide_eq_true_eq, ih,
        List.cons_append, List.cons.injEq]
      constructor
      · rintro ⟨rfl, t, rfl⟩; exact ⟨t, rfl, rfl⟩
      · rintro ⟨t, rfl, rfl⟩; exact ⟨rfl, t, rfl⟩

/-- `containsSub` is the substring relation. -/
theorem containsSub_iff (n : List Char) : ∀ h : List Char,
    containsSub n h = true ↔ ∃ l r, h = l ++ n ++ r := by
  intro h
  induction h with
  | nil =>
    simp only [containsSub, List.isEmpty_iff]
    constructor
    · rintro rfl; exact ⟨[], [], rfl⟩
    · rintro ⟨l, r, hl⟩
      rcases List.append_eq_nil.mp (List.append_eq_nil.mp hl.symm).1 with ⟨-, h2⟩
      exact h2
  | cons b bs ih =>
    simp only [containsSub, Bool.or_eq_true, beginsWith_iff, ih]
    constructor
    · rintro (⟨t, ht⟩ | ⟨l, r, rfl⟩)
      · exact ⟨[], t, by simpa using ht⟩
      · exact ⟨b :: l, r, rfl⟩
    · rintro ⟨l, r, hl⟩
      cases l with
      | nil => exact Or.inl ⟨r, by simpa using hl⟩
      | cons x xs =>
        simp only [List.cons_append, List.cons.injEq] at hl
        exact Or.inr ⟨xs, r, hl.2⟩

/-- `strContains` is the case-sensitive substring relation on the
underlying character lists. -/
theorem strContains_iff (hay needle : String) :
    strContains hay needle = true ↔
      ∃ l r, hay.data = l ++ needle.data ++ r :=
  containsSub_iff needle.data hay.data

/-- When the resolver's scan aborts, the diagnostic comes from the
normalization of some registry entry. -/
theorem findMatch_error_mem {v : V} {jvms : List Jvm} {e : String}
    (h : findMatch v jvms = .error e) :
    ∃ jvm ∈ jvms, major_version jvm = .error e := by
  induction jvms with
  | nil => simp [findMatch] at h
  | cons j rest ih =>
    rw [findMatch] at h
    cases hmv : major_version j with
    | error e' =>
      rw [hmv] at h
      cases h
      exact ⟨j, by simp, hmv⟩
    | ok n =>
      rw [hmv] at h
      dsimp only at h
      by_cases hc : (decide (n = v.number) && distro_matches v j) = true
      · rw [if_pos hc] at h; cases h
      · rw [if_neg hc] at h
        obtain ⟨jvm, hmem, hmv'⟩ := ih h
        exact ⟨jvm, by simp [hmem], hmv'⟩

/-! ### Concrete runtimes and file systems used in witnesses -/

/-- A Temurin 17 runtime. -/
def temurinJvm : Jvm :=
  { arch := "aarch64", bundle_id := "net.temurin.17", enabled := true
    home_path := "/jvms/temurin-17", name := "Temurin 17"
    platform_version := "17", vendor := "Eclipse", version := "17.0.9" }

/-- A legacy-numbered Corretto 8 runtime. -/
def correttoJvm : Jvm :=
  { arch := "x86_64", bundle_id := "com.amazon.corretto.8", enabled := true
    home_path := "/jvms/corretto-8", name := "Corretto 8"
    platform_version := "1.8", vendor := "Amazon", version := "1.8.0_392" }

/-- A runtime whose raw version string has no period. -/
def noPeriodJvm : Jvm :=
  { arch := "aarch64", bundle_id := "org.noperiod", enabled := true
    home_path := "/jvms/noperiod", name := "NoPeriod"
    platform_version := "17", vendor := "X", version := "17" }

/-- A runtime whose major component does not fit in 16 bits. -/
def hugeJvm : Jvm :=
  { arch := "aarch64", bundle_id := "org.huge", enabled := true
    home_path := "/jvms/huge", name := "Huge"
    platform_version := "65536", vendor := "X", version := "65536.0" }

/-! ### Claims -/

/-- C1: for every query and every ordered list of runtimes (whose version
strings all normalize), the resolver returns the first runtime, in registry
order, whose normalized major version equals the query's version number and
which satisfies the distribution constraint (absent constraint always
satisfied, present constraint satisfied iff it is a case-sensitive substring
of the bundle identifier or of the install path); with no such runtime
(including the empty list) the scan yields no runtime, which `switch_to`
turns into the `NoMatchingRuntime` abrupt termination. -/
theorem C1_resolver_first_match (v : V) (jvms : List Jvm)
    (hwf : ∀ j ∈ jvms, (mvOf j).isSome = true) :
    findMatch v jvms =
      .ok (jvms.find? (fun j => (mvOf j == some v.number)
        && distro_matches v j)) := by
  induction jvms with
  | nil => rfl
  | cons j rest ih =>
    have hj := hwf j (by simp)
    have hrest : ∀ x ∈ rest, (mvOf x).isSome = true :=
      fun x hx => hwf x (by simp [hx])
    obtain ⟨n, hn⟩ : ∃ n, major_version j = Except.ok n := by
      cases hmv : major_version j with
      | ok n => exact ⟨n, rfl⟩
      | error e => rw [mvOf, hmv] at hj; simp [Except.toOption] at hj
    have hmv : mvOf j = some n := by rw [mvOf, hn]; rfl
    rw [findMatch, hn, List.find?_cons, hmv]
    by_cases hnum : n = v.number
    · by_cases hdm : distro_matches v j = true
      · simp [hnum, hdm, beq_iff_eq]
      · simp only [Bool.not_eq_true] at hdm
        simp [hnum, hdm, ih hrest, beq_iff_eq]
    · have hb : (n == v.number) = false := beq_eq_false_iff_ne.mpr hnum
      simp [hb, ih hrest]
      exact fun h => absurd h hnum

/-- C1 witness: with a distribution constraint `"temurin"` and version 17,
the scan of `[correttoJvm, temurinJvm]` picks `temurinJvm`, as the
first-match characterization predicts. -/
theorem C1_resolver_first_match_witness :
    (∀ j ∈ [correttoJvm, temurinJvm], (mvOf j).isSome = true) ∧
    findMatch ⟨17, some "temurin"⟩ [correttoJvm, temurinJvm] =
      .ok ([correttoJvm, temurinJvm].find?
        (fun j => (mvOf j == some (17 : Nat))
          && distro_matches ⟨17, some "temurin"⟩ j)) :=
  ⟨by decide, C1_resolver_first_match ⟨17, some "temurin"⟩
    [correttoJvm, temurinJvm] (by decide)⟩

/-- A file system whose every directory has a `.java-version` file with
content `"17"` and no `.tool-versions` file. -/
def fsysAll17 : FileSys :=
  { javaVersion := fun _ => some "17", toolVersions := fun _ => none }

/-- A file system with no config file anywhere. -/
def fsysEmpty : FileSys :=
  { javaVersion := fun _ => none, toolVersions := fun _ => none }

/-- A file system whose every directory has a `.java-version` file with the
unparseable content `"x?!"`. -/
def fsysBadSpec : FileSys :=
  { javaVersion := fun _ => some "x?!", toolVersions := fun _ => none }

/-- C2: on the quiet `auto` path, `NoConfigFound` and
`UnparseableSpecifier` are indeed silent successes, and on the explicit
path `UnparseableSpecifier` and `NoMatchingRuntime` are reported
unsuccessfully — but `NoMatchingRuntime` on the quiet `auto` path is an
unconditional abrupt termination (exit code 101 with a diagnostic), not the
silent success the claim states: with an empty registry and a config
specifying `"17"`, the quiet auto invocation terminates unsuccessfully with
output. -/
theorem C2_quiet_no_matching_runtime_panics :
    autoInvocation fsysEmpty [] [] true none = ⟨0, [], []⟩ ∧
    autoInvocation fsysBadSpec [] [] true none = ⟨0, [], []⟩ ∧
    explicitInvocation "x?!" [] none = ⟨101, [], [badSpecMsg "x?!"]⟩ ∧
    explicitInvocation "17" [] none = ⟨101, [], [noMatchMsg ⟨17, none⟩]⟩ ∧
    autoInvocation fsysAll17 [] [] true none =
      ⟨101, [], [noMatchMsg ⟨17, none⟩]⟩ ∧
    (autoInvocation fsysAll17 [] [] true none).exitCode ≠ 0 ∧
    (autoInvocation fsysAll17 [] [] true none).stderr ≠ [] := by
  refine ⟨by decide, by decide, by decide, by decide, by decide, by decide,
    by decide⟩

/-- C3: the distribution-free specifier shapes: `"17"` gives version 17,
`"1.8"` gives version 8, `"11.0.2"` gives version 11, all without a
distribution constraint; and in general, when the remainder after stripping
the distribution prefix contains a period, the version number is parsed
from the component before the first period, unless that component is `"1"`,
in which case it is parsed from the whole text after the first period. -/
theorem C3_specifier_shapes :
    get_version_from_input "17" = some ⟨17, none⟩ ∧
    get_version_from_input "1.8" = some ⟨8, none⟩ ∧
    get_version_from_input "11.0.2" = some ⟨11, none⟩ ∧
    ∀ spec hd rest, splitOnce (stripDistroDash spec) '.' = some (hd, rest) →
      get_version_from_input spec =
        (if hd = "1" then parseU16 rest else parseU16 hd).map
          (fun n => { number := n, distro := get_distro spec }) := by
  refine ⟨by decide, by decide, by decide, ?_⟩
  intro spec hd rest hsplit
  rw [get_version_from_input, hsplit]

/-- C3 witness: the general rule applied to the remainder `"5.4"`. -/
theorem C3_specifier_shapes_witness :
    splitOnce (stripDistroDash "5.4") '.' = some ("5", "4") ∧
    get_version_from_input "5.4" =
      (if ("5" : String) = "1" then parseU16 "4" else parseU16 "5").map
        (fun n => { number := n, distro := get_distro "5.4" }) :=
  ⟨by decide, C3_specifier_shapes.2.2.2 "5.4" "5" "4" (by decide)⟩

/-- C4 counterexample: `"temurin-17"` does not parse into a query at all —
the specifier parser yields `none`, not a query with distribution
`"temurin"` and version 17. -/
theorem C4_counterexample :
    get_version_from_input "temurin-17" = none ∧
    get_version_from_input "temurin-17" ≠ some ⟨17, some "temurin"⟩ := by
  refine ⟨by decide, by decide⟩

/-- C4 (amended): a specifier with a leading alphabetic distribution name
and a period-free remainder fails to parse: the no-period arm falls back to
parsing the original full specifier, which fails whenever a distribution
prefix is present. -/
theorem C4_distro_prefix_without_period_fails (spec : String)
    (hda : (get_distro spec).isSome = true)
    (hnp : splitOnce (stripDistroDash spec) '.' = none) :
    get_version_from_input spec = none := by
  obtain ⟨c, cs, hcs, hca⟩ :
      ∃ c cs, spec.data = c :: cs ∧ c.isAlpha = true := by
    rcases hd : spec.data with _ | ⟨c, cs⟩
    · rw [get_distro] at hda
      simp [hd] at hda
    · refine ⟨c, cs, rfl, ?_⟩
      by_contra hc
      simp only [Bool.not_eq_true] at hc
      rw [get_distro] at hda
      simp [hd, List.takeWhile_cons, hc] at hda
  have hsp : spec = ⟨c :: cs⟩ := by
    cases spec
    exact congrArg String.mk hcs
  have hparse : parseU16 spec = none := by
    rw [hsp]; exact parseU16_alpha_head hca
  rw [get_version_from_input, hnp, hparse]
  rfl

/-- C4 witness: the amended rule applied to `"temurin-17"`. -/
theorem C4_distro_prefix_without_period_fails_witness :
    (get_distro "temurin-17").isSome = true ∧
    splitOnce (stripDistroDash "temurin-17") '.' = none ∧
    get_version_from_input "temurin-17" = none :=
  ⟨by decide, by decide,
    C4_distro_prefix_without_period_fails "temurin-17" (by decide) (by decide)⟩

/-- `parseU16` rejects a digit string whose value exceeds 65535. -/
theorem parseU16_digits_big {cs : List Char} (hne : cs ≠ [])
    (hd : cs.all (fun c => c.isDigit) = true)
    (hbig : 65535 < digitsToNat cs) : parseU16 ⟨cs⟩ = none := by
  have h := parseU16_digits hne hd
  rw [if_neg (by omega)] at h
  exact h

/-- C5 (amended): normalization of a version string `<hd>.<rest>` with
`hd ≠ "1"` yields the value of the digits of `hd`, provided that value fits
in 16 bits; a legacy string `1.<hd2>.<rest2>` yields the value of the
digits of `hd2` under the same bound; and a version string with no period
fails with the one-period diagnostic. -/
theorem C5_normalizer_shapes :
    (∀ jvm hd rest, splitOnce jvm.version '.' = some (hd, rest) →
      hd ≠ "1" → hd.data ≠ [] → hd.data.all (fun c => c.isDigit) = true →
      digitsToNat hd.data ≤ 65535 →
      major_version jvm = .ok (digitsToNat hd.data)) ∧
    (∀ jvm rest hd2 rest2, splitOnce jvm.version '.' = some ("1", rest) →
      splitOnce rest '.' = some (hd2, rest2) →
      hd2.data ≠ [] → hd2.data.all (fun c => c.isDigit) = true →
      digitsToNat hd2.data ≤ 65535 →
      major_version jvm = .ok (digitsToNat hd2.data)) ∧
    (∀ jvm, splitOnce jvm.version '.' = none →
      major_version jvm = .error ("Version number " ++ jvm.version
        ++ " of jvm " ++ jvm.home_path
        ++ " should contain at least one period!")) := by
  refine ⟨?_, ?_, ?_⟩
  · intro jvm hd rest hsplit hne hnem hall hle
    have hp : parseU16 hd = some (digitsToNat hd.data) := by
      have h := parseU16_digits hnem hall
      rw [if_pos hle] at h
      exact h
    unfold major_version
    rw [hsplit]
    dsimp only
    rw [if_neg hne]
    dsimp only
    rw [hp]
  · intro jvm rest hd2 rest2 hsplit hsplit2 hnem hall hle
    have hp : parseU16 hd2 = some (digitsToNat hd2.data) := by
      have h := parseU16_digits hnem hall
      rw [if_pos hle] at h
      exact h
    unfold major_version
    rw [hsplit]
    dsimp only
    rw [if_pos rfl, hsplit2]
    dsimp only
    rw [hp]
  · intro jvm hsplit
    unfold major_version
    rw [hsplit]

/-- C5 counterexample: `"65536.0"` begins with the numeric component
`"65536"` followed by a period, yet normalization does not return 65536 —
it aborts with the "should be numeric" diagnostic, because the component
does not fit in 16 bits. -/
theorem C5_counterexample :
    major_version hugeJvm =
      .error "Major version number 65536 of JVM /jvms/huge should be numeric!" ∧
    major_version hugeJvm ≠ .ok 65536 := by
  exact ⟨by decide, by decide⟩

/-- C5 witness: the non-legacy rule applied to `temurinJvm` (`"17.0.9"`). -/
theorem C5_normalizer_shapes_witness :
    splitOnce temurinJvm.version '.' = some ("17", "0.9") ∧
    major_version temurinJvm = .ok (digitsToNat "17".data) :=
  ⟨by decide, C5_normalizer_shapes.1 temurinJvm "17" "0.9" (by decide)
    (by decide) (by decide) (by decide) (by decide)⟩

/-- C6: whenever the resolver's scan aborts because a runtime's version
string is malformed (the diagnostic always comes from the normalization of
some registry entry), the invocation terminates with exit code 1 and that
diagnostic, for every quiet flag and every environment value, on the
explicit path and on the auto path alike: quiet mode never converts it into
a silent success. -/
theorem C6_malformed_always_fatal (spec : String) (jvms : List Jvm)
    (quiet : Bool) (old : Option String) (v : V) (e : String)
    (hv : get_version_from_input spec = some v)
    (he : findMatch v jvms = .error e) :
    (∃ jvm ∈ jvms, major_version jvm = .error e) ∧
    switch_to spec jvms quiet old = ⟨1, [], [e]⟩ ∧
    (∀ fsys dir, find_version_string_from_file fsys quiet dir = .ok spec →
      autoInvocation fsys dir jvms quiet old = ⟨1, [], [e]⟩) := by
  have h1 : switch_to spec jvms quiet old = ⟨1, [], [e]⟩ := by
    rw [switch_to, hv]
    dsimp only
    rw [he]
  refine ⟨findMatch_error_mem he, h1, fun fsys dir hf => ?_⟩
  rw [autoInvocation, hf]
  exact h1

/-- C6 witness: a registry whose first entry has the period-free version
string `"17"` makes even the quiet invocation fail loudly. -/
theorem C6_malformed_always_fatal_witness :
    get_version_from_input "17" = some ⟨17, none⟩ ∧
    findMatch ⟨17, none⟩ [noPeriodJvm] = .error
      "Version number 17 of jvm /jvms/noperiod should contain at least one period!" ∧
    switch_to "17" [noPeriodJvm] true none = ⟨1, [],
      ["Version number 17 of jvm /jvms/noperiod should contain at least one period!"]⟩ :=
  ⟨by decide, by decide,
    (C6_malformed_always_fatal "17" [noPeriodJvm] true none ⟨17, none⟩
      "Version number 17 of jvm /jvms/noperiod should contain at least one period!"
      (by decide) (by decide)).2.1⟩

/-- C7 counterexample: with the file content `"javascript 5\njava 21\n"`,
the line `"javascript 5"` — whose tool token merely starts with `"java"` —
is consulted instead of being ignored, so the result is not `"21"`. -/
theorem C7_counterexample :
    find_version_string_from_tool_versions (some "javascript 5\njava 21\n") =
      some "javascript 5" ∧
    find_version_string_from_tool_versions (some "javascript 5\njava 21\n") ≠
      some "21" := by
  exact ⟨by decide, by decide⟩

/-- C7 (amended): the first trimmed line that starts with `"java"` (a prefix
test, not an exact-token test, so e.g. `"javascript 5"` qualifies) is
consulted, and the specifier is that line with every occurrence of
`"java "` removed; in particular `"ruby 3.2\njava 21\n"` yields `"21"`. -/
theorem C7_tool_versions_behavior :
    find_version_string_from_tool_versions (some "ruby 3.2\njava 21\n") =
      some "21" ∧
    (∀ contents line,
      ((rustLines contents).map rustTrim).find?
          (fun l => rustStartsWith l "java") = some line →
      find_version_string_from_tool_versions (some contents) =
        some (rustReplace line "java " "")) ∧
    (∀ contents,
      ((rustLines contents).map rustTrim).find?
          (fun l => rustStartsWith l "java") = none →
      find_version_string_from_tool_versions (some contents) = none) := by
  refine ⟨by decide, ?_, ?_⟩
  · intro contents line hfind
    rw [find_version_string_from_tool_versions, hfind]
  · intro contents hfind
    rw [find_version_string_from_tool_versions, hfind]

/-- C7 witness: the general rule applied to the single-line file
`"java 11\n"`. -/
theorem C7_tool_versions_behavior_witness :
    ((rustLines "java 11\n").map rustTrim).find?
      (fun l => rustStartsWith l "java") = some "java 11" ∧
    find_version_string_from_tool_versions (some "java 11\n") =
      some (rustReplace "java 11" "java " "") :=
  ⟨by decide, C7_tool_versions_behavior.2.1 "java 11\n" "java 11" (by decide)⟩

/-- A tree where only `/a/b` has a primary config file, with content
`"  17  \n"`. -/
def fsys8 : FileSys :=
  { javaVersion := fun d => if d = ["b", "a"] then some "  17  \n" else none
    toolVersions := fun _ => none }

/-- C8: per level the primary file (whole trimmed content) takes precedence
over the secondary file, which takes precedence over the parent directory;
with neither file at any level the locator fails through `exit_with_err`
with the no-config diagnostic; and starting from `/a/b/c` with a primary
file `"  17  \n"` at `/a/b`, the specifier is `"17"`. -/
theorem C8_cascading_locator :
    (∀ fsys quiet dir contents, fsys.javaVersion dir = some contents →
      find_version_string_from_file fsys quiet dir =
        .ok (rustTrim contents)) ∧
    (∀ fsys quiet dir spec, fsys.javaVersion dir = none →
      find_version_string_from_tool_versions (fsys.toolVersions dir) =
        some spec →
      find_version_string_from_file fsys quiet dir = .ok spec) ∧
    (∀ fsys quiet c parent, fsys.javaVersion (c :: parent) = none →
      find_version_string_from_tool_versions
        (fsys.toolVersions (c :: parent)) = none →
      find_version_string_from_file fsys quiet (c :: parent) =
        find_version_string_from_file fsys quiet parent) ∧
    (∀ fsys quiet, fsys.javaVersion [] = none →
      find_version_string_from_tool_versions (fsys.toolVersions []) = none →
      find_version_string_from_file fsys quiet [] =
        .error (exit_with_err noConfigMsg quiet)) ∧
    (∀ fsys quiet dir, (∀ d, fsys.javaVersion d = none) →
      (∀ d, find_version_string_from_tool_versions (fsys.toolVersions d) =
        none) →
      find_version_string_from_file fsys quiet dir =
        .error (exit_with_err noConfigMsg quiet)) ∧
    find_version_string_from_file fsys8 false ["c", "b", "a"] = .ok "17" := by
  refine ⟨?_, ?_, ?_, ?_, ?_, by decide⟩
  · intro fsys quiet dir contents hjv
    cases dir <;> rw [find_version_string_from_file, hjv]
  · intro fsys quiet dir spec hjv htv
    cases dir <;> rw [find_version_string_from_file, hjv, htv]
  · intro fsys quiet c parent hjv htv
    rw [find_version_string_from_file, hjv, htv]
  · intro fsys quiet hjv htv
    rw [find_version_string_from_file, hjv, htv]
  · intro fsys quiet dir hj ht
    induction dir with
    | nil => rw [find_version_string_from_file, hj [], ht []]
    | cons c parent ih =>
      rw [find_version_string_from_file, hj (c :: parent), ht (c :: parent)]
      exact ih

/-- C8 witness: the primary-file rule applied at `/a/b` itself. -/
theorem C8_cascading_locator_witness :
    fsys8.javaVersion ["b", "a"] = some "  17  \n" ∧
    find_version_string_from_file fsys8 true ["b", "a"] =
      .ok (rustTrim "  17  \n") :=
  ⟨by decide, C8_cascading_locator.1 fsys8 true ["b", "a"] "  17  \n"
    (by decide)⟩

/-- For a fixed file system and directory, the locator either yields the
same specifier for every quiet flag, or fails through `exit_with_err` with
the no-config diagnostic for every quiet flag. -/
theorem locator_quiet_cases (fsys : FileSys) (dir : List String) :
    (∃ s, ∀ q, find_version_string_from_file fsys q dir = .ok s) ∨
    (∀ q, find_version_string_from_file fsys q dir =
      .error (exit_with_err noConfigMsg q)) := by
  induction dir with
  | nil =>
    cases hj : fsys.javaVersion [] with
    | some c =>
      exact Or.inl ⟨rustTrim c, fun q => by
        rw [find_version_string_from_file, hj]⟩
    | none =>
      cases ht : find_version_string_from_tool_versions
          (fsys.toolVersions []) with
      | some s =>
        exact Or.inl ⟨s, fun q => by
          rw [find_version_string_from_file, hj, ht]⟩
      | none =>
        exact Or.inr fun q => by rw [find_version_string_from_file, hj, ht]
  | cons c parent ih =>
    cases hj : fsys.javaVersion (c :: parent) with
    | some cc =>
      exact Or.inl ⟨rustTrim cc, fun q => by
        rw [find_version_string_from_file, hj]⟩
    | none =>
      cases ht : find_version_string_from_tool_versions
          (fsys.toolVersions (c :: parent)) with
      | some s =>
        exact Or.inl ⟨s, fun q => by
          rw [find_version_string_from_file, hj, ht]⟩
      | none =>
        rcases ih with ⟨s, hs⟩ | hs
        · exact Or.inl ⟨s, fun q => by
            rw [find_version_string_from_file, hj, ht, hs q]⟩
        · exact Or.inr fun q => by
            rw [find_version_string_from_file, hj, ht, hs q]

/-- The standard-output stream of `switch_to` does not depend on the quiet
flag or on the previously exported environment value. -/
theorem switch_to_stdout_const (spec : String) (jvms : List Jvm)
    (q1 q2 : Bool) (o1 o2 : Option String) :
    (switch_to spec jvms q1 o1).stdout = (switch_to spec jvms q2 o2).stdout := by
  cases hv : get_version_from_input spec with
  | none =>
    rw [switch_to, switch_to, hv]
    cases q1 <;> cases q2 <;> rfl
  | some v =>
    rw [switch_to, switch_to, hv]
    dsimp only
    cases hm : findMatch v jvms with
    | error e => rfl
    | ok sel =>
      cases sel with
      | none => rfl
      | some selection =>
        dsimp only
        split <;> split <;> rfl

/-- C9: resolution is deterministic and independent of the quiet flag and
of the previously exported runtime path: two invocations differing only in
those inputs write the same standard output (on the explicit and on the
auto path), and when resolution succeeds the printed line is exactly the
selected runtime's install path — selection itself (`findMatch`) reads
neither input. -/
theorem C9_resolution_independent_of_quiet_and_env (spec : String)
    (jvms : List Jvm) (q1 q2 : Bool) (o1 o2 : Option String) :
    ((switch_to spec jvms q1 o1).stdout =
      (switch_to spec jvms q2 o2).stdout) ∧
    (∀ fsys dir, (autoInvocation fsys dir jvms q1 o1).stdout =
      (autoInvocation fsys dir jvms q2 o2).stdout) ∧
    (∀ v sel, get_version_from_input spec = some v →
      findMatch v jvms = .ok (some sel) →
      (switch_to spec jvms q1 o1).stdout = [sel.home_path]) := by
  refine ⟨switch_to_stdout_const spec jvms q1 q2 o1 o2, ?_, ?_⟩
  · intro fsys dir
    rcases locator_quiet_cases fsys dir with ⟨s, hs⟩ | hs
    · rw [autoInvocation, autoInvocation, hs q1, hs q2]
      exact switch_to_stdout_const s jvms q1 q2 o1 o2
    · rw [autoInvocation, autoInvocation, hs q1, hs q2]
      cases q1 <;> cases q2 <;> rfl
  · intro v sel hv hm
    rw [switch_to, hv]
    dsimp only
    rw [hm]
    dsimp only
    split <;> rfl

/-- C9 witness: a quiet and a non-quiet run with different environment
values print the selected install path alike. -/
theorem C9_resolution_independent_witness :
    get_version_from_input "17" = some ⟨17, none⟩ ∧
    findMatch ⟨17, none⟩ [temurinJvm] = .ok (some temurinJvm) ∧
    (switch_to "17" [temurinJvm] true none).stdout = [temurinJvm.home_path] :=
  ⟨by decide, by decide,
    (C9_resolution_independent_of_quiet_and_env "17" [temurinJvm] true false
      none (some "/elsewhere")).2.2 ⟨17, none⟩ temurinJvm
      (by decide) (by decide)⟩

/-- C10: both the normalizer and the specifier parser parse the extracted
major-version token as a 16-bit unsigned integer, so a well-formed digit
token whose value exceeds 65535 makes normalization abort with the "should
be numeric" diagnostic and makes specifier parsing yield no query, in every
token position of either grammar. -/
theorem C10_u16_range :
    (∀ jvm hd rest, splitOnce jvm.version '.' = some (hd, rest) →
      hd ≠ "1" → hd.data ≠ [] → hd.data.all (fun c => c.isDigit) = true →
      65535 < digitsToNat hd.data →
      major_version jvm = .error ("Major version number " ++ hd
        ++ " of JVM " ++ jvm.home_path ++ " should be numeric!")) ∧
    (∀ jvm rest hd2 rest2, splitOnce jvm.version '.' = some ("1", rest) →
      splitOnce rest '.' = some (hd2, rest2) →
      hd2.data ≠ [] → hd2.data.all (fun c => c.isDigit) = true →
      65535 < digitsToNat hd2.data →
      major_version jvm = .error ("Major version number " ++ hd2
        ++ " of JVM " ++ jvm.home_path ++ " should be numeric!")) ∧
    (∀ spec hd rest, splitOnce (stripDistroDash spec) '.' = some (hd, rest) →
      hd ≠ "1" → hd.data ≠ [] → hd.data.all (fun c => c.isDigit) = true →
      65535 < digitsToNat hd.data →
      get_version_from_input spec = none) ∧
    (∀ spec rest, splitOnce (stripDistroDash spec) '.' = some ("1", rest) →
      rest.data ≠ [] → rest.data.all (fun c => c.isDigit) = true →
      65535 < digitsToNat rest.data →
      get_version_from_input spec = none) ∧
    (∀ spec, splitOnce (stripDistroDash spec) '.' = none →
      spec.data ≠ [] → spec.data.all (fun c => c.isDigit) = true →
      65535 < digitsToNat spec.data →
      get_version_from_input spec = none) := by
  refine ⟨?_, ?_, ?_, ?_, ?_⟩
  · intro jvm hd rest hsplit hne hnem hall hbig
    have hp : parseU16 hd = none := parseU16_digits_big hnem hall hbig
    unfold major_version
    rw [hsplit]
    dsimp only
    rw [if_neg hne]
    dsimp only
    rw [hp]
  · intro jvm rest hd2 rest2 hsplit hsplit2 hnem hall hbig
    have hp : parseU16 hd2 = none := parseU16_digits_big hnem hall hbig
    unfold major_version
    rw [hsplit]
    dsimp only
    rw [if_pos rfl, hsplit2]
    dsimp only
    rw [hp]
  · intro spec hd rest hsplit hne hnem hall hbig
    have hp : parseU16 hd = none := parseU16_digits_big hnem hall hbig
    rw [get_version_from_input, hsplit]
    dsimp only
    rw [if_neg hne, hp]
    rfl
  · intro spec rest hsplit hnem hall hbig
    have hp : parseU16 rest = none := parseU16_digits_big hnem hall hbig
    rw [get_version_from_input, hsplit]
    dsimp only
    rw [if_pos rfl, hp]
    rfl
  · intro spec hnp hnem hall hbig
    have hp : parseU16 spec = none := parseU16_digits_big hnem hall hbig
    rw [get_version_from_input, hnp]
    dsimp only
    rw [hp]
    rfl

/-- C10 witness: the specifier `"70000.1"` extracts the well-formed digit
token `"70000"`, whose value exceeds 65535, and parsing fails. -/
theorem C10_u16_range_witness :
    splitOnce (stripDistroDash "70000.1") '.' = some ("70000", "1") ∧
    (65535 < digitsToNat "70000".data) ∧
    get_version_from_input "70000.1" = none :=
  ⟨by decide, by decide,
    C10_u16_range.2.2.1 "70000.1" "70000" "1" (by decide) (by decide)
      (by decide) (by decide) (by decide)⟩

end Jvmvj
